import Mathlib

/-!
Verification of the torpaste core (src/core/src/crypto.rs, storage.rs,
protocol.rs) against its natural-language specification.

Shallow embedding conventions:
* Byte strings are `List Nat` (`Bytes`); base64-encoded strings produced by
  the `base64` crate are also modelled as `Bytes` (they are ASCII data).
* External library primitives (sodiumoxide's sha256 / secretbox / argon2id,
  the base64 codec, serde_json) are not code of this repository; they are
  parameters (`Prims`, `Serde`) and theorems assume only their documented
  contracts pointwise.  Length-checked `from_slice` constructors of
  sodiumoxide are concrete, since their behaviour is exactly a length test.
* Randomness (`randombytes`, `gen_nonce`, key generation, message ids) and
  the clock become explicit arguments.
* Rust `Result` becomes `Except`; file I/O of `SecureStorage` becomes a
  record of file contents (`FS`).
-/

namespace Torpaste

/-- Byte strings (`Vec<u8>` / `&[u8]` / ASCII `String`). -/
abbrev Bytes := List Nat

/-- `CryptoError` from src/core/src/crypto.rs. -/
inductive CryptoError where
  | keyGenerationFailed
  | encryptionFailed
  | decryptionFailed
  | invalidKeyLength
  | base64Error
  | keyExchangeError
  | invalidFingerprint
deriving DecidableEq, Repr

/-- External primitives used by crypto.rs: sodiumoxide's sha256 and
secretbox, argon2id key derivation, and the base64 codec.  `seal` takes
message, nonce, key; `sbOpen` takes ciphertext, nonce, key; `deriveKey`
takes password, salt. -/
structure Prims where
  sha256 : Bytes → Bytes
  b64encode : Bytes → Bytes
  b64decode : Bytes → Option Bytes
  sbSeal : Bytes → Bytes → Bytes → Bytes
  sbOpen : Bytes → Bytes → Bytes → Option Bytes
  deriveKey : Bytes → Bytes → Option Bytes

/-- `pwhash::argon2id13::Salt::from_slice`: succeeds iff the slice has the
16-byte salt length. -/
def saltFromSlice (b : Bytes) : Option Bytes :=
  if b.length = 16 then some b else none

/-- `secretbox::Nonce::from_slice`: succeeds iff the slice has the 24-byte
nonce length. -/
def nonceFromSlice (b : Bytes) : Option Bytes :=
  if b.length = 24 then some b else none

/-- `kx::PublicKey::from_slice`: succeeds iff the slice has the 32-byte
public-key length. -/
def publicKeyFromSlice (b : Bytes) : Option Bytes :=
  if b.length = 32 then some b else none

/-- Short-circuit byte-string equality: the comparison performed by Rust's
derived `PartialEq` on `String` (length test, then a memcmp that may stop
at the first differing byte). -/
def naive_eq : Bytes → Bytes → Bool
  | [], [] => true
  | [], _ :: _ => false
  | _ :: _, [] => false
  | a :: as, b :: bs => a = b && naive_eq as bs

/-- Number of byte comparisons the short-circuit equality performs before
returning (the cost model of `naive_eq` on the byte data). -/
def naive_eq_steps : Bytes → Bytes → Nat
  | [], _ => 0
  | _ :: _, [] => 0
  | a :: as, b :: bs => if a = b then 1 + naive_eq_steps as bs else 1

/-- `Fingerprint(String)` from crypto.rs: the base64 rendering of the
truncated hash, stored as its byte string. -/
structure Fingerprint where
  s : Bytes
deriving DecidableEq, Repr

/-- `Fingerprint::from_public_key`: sha256 of the key, first 8 bytes,
base64-encoded. -/
def Fingerprint.from_public_key (P : Prims) (pk : Bytes) : Fingerprint :=
  ⟨P.b64encode ((P.sha256 pk).take 8)⟩

/-- `Fingerprint::verify`: `*self == Fingerprint::from_public_key(pk)` via
the derived (short-circuit) equality. -/
def Fingerprint.verify (P : Prims) (f : Fingerprint) (pk : Bytes) : Bool :=
  naive_eq f.s (Fingerprint.from_public_key P pk).s

/-- `EncryptedMessage { nonce, ciphertext }` (both base64). -/
structure EncryptedMessage where
  nonce : Bytes
  ciphertext : Bytes
deriving DecidableEq, Repr

/-- `IdentityKeyPair { public_key, secret_key }` (both base64). -/
structure IdentityKeyPair where
  public_key : Bytes
  secret_key : Bytes
deriving DecidableEq, Repr

namespace Crypto

/-- `Crypto::generate_identity`, with the raw key material of
`kx::gen_keypair` as explicit arguments (it is random). -/
def generate_identity (P : Prims) (pk_raw sk_raw : Bytes) :
    IdentityKeyPair :=
  { public_key := P.b64encode pk_raw, secret_key := P.b64encode sk_raw }

/-- `Crypto::encrypt`: fresh nonce (explicit argument here), secretbox
seal, base64 both parts.  The `SecretBoxKey::from_slice(...).expect` on a
well-typed `SessionKey` cannot fail and is elided. -/
def encrypt (P : Prims) (nonce message key : Bytes) : EncryptedMessage :=
  { nonce := P.b64encode nonce
    ciphertext := P.b64encode (P.sbSeal message nonce key) }

/-- `Crypto::decrypt`: base64-decode nonce (Base64Error on failure),
length-check it (InvalidKeyLength), base64-decode ciphertext, open the
secretbox (DecryptionFailed on failure). -/
def decrypt (P : Prims) (enc : EncryptedMessage) (key : Bytes) :
    Except CryptoError Bytes :=
  match P.b64decode enc.nonce with
  | none => .error .base64Error
  | some nb =>
    match nonceFromSlice nb with
    | none => .error .invalidKeyLength
    | some nonce =>
      match P.b64decode enc.ciphertext with
      | none => .error .base64Error
      | some ciphertext =>
        match P.sbOpen ciphertext nonce key with
        | none => .error .decryptionFailed
        | some m => .ok m

/-- `Crypto::encrypt_with_password`: random 16-byte salt and 24-byte nonce
(explicit arguments here), argon2id-derived key, secretbox seal, output
`salt ‖ nonce ‖ ciphertext`. -/
def encrypt_with_password (P : Prims) (salt_bytes nonce : Bytes)
    (data password : Bytes) : Except CryptoError Bytes :=
  match saltFromSlice salt_bytes with
  | none => .error .encryptionFailed
  | some salt =>
    match P.deriveKey password salt with
    | none => .error .encryptionFailed
    | some key =>
      let ciphertext := P.sbSeal data nonce key
      .ok (salt_bytes ++ nonce ++ ciphertext)

/-- `Crypto::decrypt_with_password`: reject blobs shorter than the 40-byte
header, split `salt := data[..16]`, `nonce := data[16..40]`,
`ciphertext := data[40..]`, re-derive the key, open the secretbox; every
failure is `DecryptionFailed`. -/
def decrypt_with_password (P : Prims) (data password : Bytes) :
    Except CryptoError Bytes :=
  if data.length < 16 + 24 then .error .decryptionFailed
  else
    let salt_bytes := data.take 16
    let nonce_bytes := (data.drop 16).take 24
    let ciphertext := data.drop 40
    match saltFromSlice salt_bytes with
    | none => .error .decryptionFailed
    | some salt =>
      match P.deriveKey password salt with
      | none => .error .decryptionFailed
      | some key =>
        match nonceFromSlice nonce_bytes with
        | none => .error .decryptionFailed
        | some nonce =>
          match P.sbOpen ciphertext nonce key with
          | none => .error .decryptionFailed
          | some m => .ok m

end Crypto

/-- Concrete stand-in for the external primitives, used to instantiate
theorems at concrete inputs (it satisfies the assumed library contracts at
the inputs where they are needed). -/
def mockPrims : Prims where
  sha256 := id
  b64encode := id
  b64decode := some
  sbSeal := fun m _ k => (k.length :: k) ++ m
  sbOpen := fun c _ k =>
    if c.take (k.length + 1) = k.length :: k then some (c.drop (k.length + 1))
    else none
  deriveKey := fun p _ => some (p.length :: p)

/-- C1: decrypting the result of `encrypt` with the same session key
returns the plaintext, assuming the base64 codec round-trips on the two
encoded values, the nonce has the 24-byte secretbox nonce length, and the
secretbox primitive opens its own seal under the same key. -/
theorem c1_decrypt_encrypt_roundtrip (P : Prims) (nonce m key : Bytes)
    (hb1 : P.b64decode (P.b64encode nonce) = some nonce)
    (hb2 : P.b64decode (P.b64encode (P.sbSeal m nonce key)) =
      some (P.sbSeal m nonce key))
    (hn : nonce.length = 24)
    (hopen : P.sbOpen (P.sbSeal m nonce key) nonce key = some m) :
    Crypto.decrypt P (Crypto.encrypt P nonce m key) key = .ok m := by
  simp [Crypto.decrypt, Crypto.encrypt, hb1, hb2, nonceFromSlice, hn, hopen]

/-- C1 witness: the round-trip theorem instantiated at a concrete
plaintext, nonce and key over the concrete primitives. -/
theorem c1_decrypt_encrypt_roundtrip_witness :
    Crypto.decrypt mockPrims
      (Crypto.encrypt mockPrims (List.replicate 24 7) [1, 2, 3] [9, 9])
      [9, 9] = .ok [1, 2, 3] :=
  c1_decrypt_encrypt_roundtrip mockPrims (List.replicate 24 7) [1, 2, 3]
    [9, 9] (by rfl) (by rfl) (by decide) (by decide)

/-- Slicing a `salt(16) ‖ nonce(24) ‖ ciphertext` blob recovers its three
parts, and such a blob is never shorter than the 40-byte header. -/
theorem slices40 (s n c : Bytes) (hs : s.length = 16) (hn : n.length = 24) :
    (s ++ n ++ c).take 16 = s ∧ ((s ++ n ++ c).drop 16).take 24 = n ∧
    (s ++ n ++ c).drop 40 = c ∧ ¬ ((s ++ n ++ c).length < 16 + 24) := by
  refine ⟨?_, ?_, ?_, ?_⟩
  · rw [List.append_assoc, ← hs]; exact List.take_left s (n ++ c)
  · rw [List.append_assoc, ← hs, List.drop_left, ← hn, List.take_left]
  · have h : (s ++ n).length = 40 := by simp [hs, hn]
    rw [← h, List.drop_left]
  · simp [hs, hn]; omega

/-- C2: password encryption produces `salt ‖ nonce ‖ ciphertext` and
decrypting that blob with the same password returns the plaintext;
decrypting it with a different password fails with `DecryptionFailed`,
assuming the re-derived key cannot open the box (the "overwhelming
probability" event of the ideal AEAD / KDF). -/
theorem c2_password_roundtrip_wrong_password_fails (P : Prims)
    (d password salt nonce key : Bytes)
    (hs : salt.length = 16) (hn : nonce.length = 24)
    (hk : P.deriveKey password salt = some key)
    (hopen : P.sbOpen (P.sbSeal d nonce key) nonce key = some d) :
    Crypto.encrypt_with_password P salt nonce d password =
      .ok (salt ++ nonce ++ P.sbSeal d nonce key) ∧
    Crypto.decrypt_with_password P (salt ++ nonce ++ P.sbSeal d nonce key)
      password = .ok d ∧
    ∀ password' : Bytes, password' ≠ password →
      (∀ key', P.deriveKey password' salt = some key' →
        P.sbOpen (P.sbSeal d nonce key) nonce key' = none) →
      Crypto.decrypt_with_password P (salt ++ nonce ++ P.sbSeal d nonce key)
        password' = .error .decryptionFailed := by
  obtain ⟨h1, h2, h3, h4⟩ := slices40 salt nonce (P.sbSeal d nonce key) hs hn
  refine ⟨?_, ?_, ?_⟩
  · simp [Crypto.encrypt_with_password, saltFromSlice, hs, hk]
  · simp only [Crypto.decrypt_with_password, if_neg h4, h1, h2, h3,
      saltFromSlice, hs, if_true, nonceFromSlice, hn, hk, hopen]
  · intro password' _hne hfail
    simp only [Crypto.decrypt_with_password, if_neg h4, h1, h2, h3,
      saltFromSlice, hs, if_true, nonceFromSlice, hn]
    cases hdk : P.deriveKey password' salt with
    | none => rfl
    | some key' => simp [hfail key' hdk]

/-- C2 witness: the round trip and the wrong-password failure at a
concrete plaintext, salt, nonce and passwords over the concrete
primitives. -/
theorem c2_password_roundtrip_wrong_password_fails_witness :
    Crypto.encrypt_with_password mockPrims (List.replicate 16 5)
      (List.replicate 24 7) [3, 4] [2] =
      .ok (List.replicate 16 5 ++ List.replicate 24 7 ++
        mockPrims.sbSeal [3, 4] (List.replicate 24 7) [1, 2]) ∧
    Crypto.decrypt_with_password mockPrims
      (List.replicate 16 5 ++ List.replicate 24 7 ++
        mockPrims.sbSeal [3, 4] (List.replicate 24 7) [1, 2]) [2] =
      .ok [3, 4] ∧
    Crypto.decrypt_with_password mockPrims
      (List.replicate 16 5 ++ List.replicate 24 7 ++
        mockPrims.sbSeal [3, 4] (List.replicate 24 7) [1, 2]) [1] =
      .error .decryptionFailed := by
  have h := c2_password_roundtrip_wrong_password_fails mockPrims [3, 4] [2]
    (List.replicate 16 5) (List.replicate 24 7) [1, 2]
    (by decide) (by decide) (by decide) (by decide)
  exact ⟨h.1, h.2.1, h.2.2 [1] (by decide)
    (fun key' hk' => by injection hk' with h'; subst h'; decide)⟩

/-- C8: `decrypt_with_password` fails with `DecryptionFailed` on any blob
shorter than the 40-byte header; on any blob whose 16-byte salt slice is
rejected by `Salt::from_slice`; and on any blob for which secretbox
verification of the ciphertext fails under the re-derived key. -/
theorem c8_decrypt_with_password_failure_modes (P : Prims) :
    (∀ data password : Bytes, data.length < 40 →
      Crypto.decrypt_with_password P data password =
        .error .decryptionFailed) ∧
    (∀ data password : Bytes, saltFromSlice (data.take 16) = none →
      Crypto.decrypt_with_password P data password =
        .error .decryptionFailed) ∧
    (∀ data password key : Bytes, 40 ≤ data.length →
      P.deriveKey password (data.take 16) = some key →
      P.sbOpen (data.drop 40) ((data.drop 16).take 24) key = none →
      Crypto.decrypt_with_password P data password =
        .error .decryptionFailed) := by
  refine ⟨?_, ?_, ?_⟩
  · intro data password h
    simp only [Crypto.decrypt_with_password, if_pos (by omega : data.length < 16 + 24)]
  · intro data password h
    have hlt : data.length < 16 + 24 := by
      by_contra hge
      have : (data.take 16).length = 16 := by simp; omega
      simp [saltFromSlice, this] at h
    simp only [Crypto.decrypt_with_password, if_pos hlt]
  · intro data password key hge hk hfail
    have hsalt : saltFromSlice (data.take 16) = some (data.take 16) := by
      have : (data.take 16).length = 16 := by simp; omega
      simp [saltFromSlice, this]
    have hnonce : nonceFromSlice ((data.drop 16).take 24) =
        some ((data.drop 16).take 24) := by
      have : ((data.drop 16).take 24).length = 24 := by simp; omega
      simp [nonceFromSlice, this]
    simp only [Crypto.decrypt_with_password,
      if_neg (by omega : ¬ data.length < 16 + 24), hsalt, hk, hnonce, hfail]

/-- C8 witness: the three failure modes at concrete blobs and passwords
over the concrete primitives. -/
theorem c8_decrypt_with_password_failure_modes_witness :
    Crypto.decrypt_with_password mockPrims [1] [] =
      .error .decryptionFailed ∧
    Crypto.decrypt_with_password mockPrims [] [5] =
      .error .decryptionFailed ∧
    Crypto.decrypt_with_password mockPrims (List.replicate 40 0) [2] =
      .error .decryptionFailed :=
  ⟨(c8_decrypt_with_password_failure_modes mockPrims).1 [1] [] (by decide),
   (c8_decrypt_with_password_failure_modes mockPrims).2.1 [] [5] (by decide),
   (c8_decrypt_with_password_failure_modes mockPrims).2.2
     (List.replicate 40 0) [2] [1, 2] (by decide) (by decide) (by decide)⟩

/-- The short-circuit equality is logically (though not in running time)
the same as equality of byte strings. -/
theorem naive_eq_iff_eq (a b : Bytes) : naive_eq a b = true ↔ a = b := by
  induction a generalizing b with
  | nil => cases b <;> simp [naive_eq]
  | cons x xs ih =>
    cases b with
    | nil => simp [naive_eq]
    | cons y ys => simp [naive_eq, ih]

/-- C6: `from_public_key` is deterministic (equal public keys give equal
fingerprints), and `verify` returns true exactly when the fingerprint
equals the one derived from the given public key. -/
theorem c6_fingerprint_deterministic_verify_iff :
    (∀ (P : Prims) (pk pk' : Bytes), pk = pk' →
      Fingerprint.from_public_key P pk = Fingerprint.from_public_key P pk') ∧
    (∀ (P : Prims) (f : Fingerprint) (pk : Bytes),
      Fingerprint.verify P f pk = true ↔
        f = Fingerprint.from_public_key P pk) := by
  refine ⟨fun P pk pk' h => by rw [h], fun P f pk => ?_⟩
  rw [Fingerprint.verify, naive_eq_iff_eq]
  cases f
  cases Fingerprint.from_public_key P pk
  simp

/-- C6 witness: determinism and the verification equivalence at a concrete
key and fingerprint over the concrete primitives. -/
theorem c6_fingerprint_deterministic_verify_iff_witness :
    Fingerprint.from_public_key mockPrims [1] =
      Fingerprint.from_public_key mockPrims [1] ∧
    (Fingerprint.verify mockPrims ⟨[2]⟩ [3] = true ↔
      Fingerprint.mk [2] = Fingerprint.from_public_key mockPrims [3]) :=
  ⟨c6_fingerprint_deterministic_verify_iff.1 mockPrims [1] [1] rfl,
   c6_fingerprint_deterministic_verify_iff.2 mockPrims ⟨[2]⟩ [3]⟩

/-- C5: `Fingerprint::verify` compares via the derived short-circuit
(general-purpose) equality, and that comparison is not constant-time: at
the concrete 32-byte public key below, two candidate fingerprints of equal
length cost a different number of byte comparisons (1 versus 2), the cost
depending on the position of the first differing byte. -/
theorem c5_verify_comparison_not_constant_time :
    (∀ (P : Prims) (f : Fingerprint) (pk : Bytes),
      Fingerprint.verify P f pk =
        naive_eq f.s (Fingerprint.from_public_key P pk).s) ∧
    naive_eq_steps [1, 0, 0, 0, 0, 0, 0, 0]
      (Fingerprint.from_public_key mockPrims (List.replicate 32 0)).s = 1 ∧
    naive_eq_steps [0, 1, 0, 0, 0, 0, 0, 0]
      (Fingerprint.from_public_key mockPrims (List.replicate 32 0)).s = 2 ∧
    ([1, 0, 0, 0, 0, 0, 0, 0] : Bytes).length =
      ([0, 1, 0, 0, 0, 0, 0, 0] : Bytes).length :=
  ⟨fun _ _ _ => rfl, by decide, by decide, by decide⟩

/-- `MessageType` from src/core/src/protocol.rs. -/
inductive MessageType where
  | handshake
  | text
  | file
  | ack
  | keepAlive
  | disconnect
deriving DecidableEq, Repr

/-- `FileMetadata` from protocol.rs. -/
structure FileMetadata where
  name : Bytes
  size : Nat
  mime_type : Bytes
deriving DecidableEq, Repr

/-- `FrameType` from protocol.rs. -/
inductive FrameType where
  | single
  | firstFragment
  | middleFragment
  | lastFragment
deriving DecidableEq, Repr

/-- `ProtocolFrame` from protocol.rs. -/
structure ProtocolFrame where
  frame_type : FrameType
  payload : Bytes
  checksum : Bytes
deriving DecidableEq, Repr

/-- `Message` from protocol.rs; `sequence` is a `u64`, so its arithmetic
is modulo `2 ^ 64`. -/
structure Message where
  id : Bytes
  msg_type : MessageType
  sender : Bytes
  timestamp : Int
  content : Bytes
  sequence : Nat
  file_metadata : Option FileMetadata
deriving DecidableEq, Repr

/-- `ChatProtocol` state from protocol.rs. -/
structure ChatProtocol where
  version : Nat
  max_fragment_size : Nat
  sequence : Nat
  pending_fragments : List ProtocolFrame
deriving Repr

/-- `ChatProtocol::new`. -/
def ChatProtocol.new : ChatProtocol :=
  { version := 1, max_fragment_size := 1024, sequence := 0,
    pending_fragments := [] }

/-- `ChatProtocol::next_sequence`: return the current counter, then
increment it (`u64` wrapping arithmetic). -/
def ChatProtocol.next_sequence (p : ChatProtocol) : Nat × ChatProtocol :=
  (p.sequence, { p with sequence := (p.sequence + 1) % 2 ^ 64 })

/-- `ChatProtocol::create_text_message`; the random message id and the
clock reading are explicit arguments. -/
def ChatProtocol.create_text_message (p : ChatProtocol) (id : Bytes)
    (timestamp : Int) (sender content : Bytes) : Message × ChatProtocol :=
  let sp := p.next_sequence
  ({ id := id, msg_type := .text, sender := sender, timestamp := timestamp,
     content := content, sequence := sp.1, file_metadata := none }, sp.2)

/-- A run of consecutive `create_text_message` calls on one instance, one
call per `(id, timestamp, content)` triple, returning the messages in call
order. -/
def runTextMessages (sender : Bytes) :
    ChatProtocol → List (Bytes × Int × Bytes) → List Message
  | _, [] => []
  | p, (id, ts, content) :: rest =>
    let mp := p.create_text_message id ts sender content
    mp.1 :: runTextMessages sender mp.2 rest

/-- The sequence fields of a run of `create_text_message` calls starting
from any in-range counter value `p.sequence` are
`(p.sequence + i) % 2 ^ 64` for `i = 0, 1, ...`. -/
theorem runTextMessages_map_sequence (sender : Bytes) (p : ChatProtocol)
    (inputs : List (Bytes × Int × Bytes)) (hp : p.sequence < 2 ^ 64) :
    (runTextMessages sender p inputs).map Message.sequence =
      (List.range inputs.length).map (fun i => (p.sequence + i) % 2 ^ 64) := by
  induction inputs generalizing p with
  | nil => simp [runTextMessages]
  | cons hd tl ih =>
    obtain ⟨id, ts, content⟩ := hd
    simp only [runTextMessages, ChatProtocol.create_text_message,
      ChatProtocol.next_sequence, List.map_cons, List.length_cons]
    rw [List.range_succ_eq_map, List.map_cons, List.map_map]
    refine congrArg₂ _ ?_ ?_
    · omega
    · rw [ih _ (Nat.mod_lt _ (by norm_num))]
      refine List.map_congr_left fun i _ => ?_
      simp only [Function.comp_apply]
      rw [Nat.mod_add_mod]
      omega

/-- C7 (amended): any number `N ≤ 2 ^ 64` of consecutive
`create_text_message` calls on a fresh `ChatProtocol` yields messages
whose sequence fields are exactly `0, 1, ..., N - 1` in order. -/
theorem c7_fresh_run_sequences_are_range (sender : Bytes)
    (inputs : List (Bytes × Int × Bytes)) (hN : inputs.length ≤ 2 ^ 64) :
    (runTextMessages sender ChatProtocol.new inputs).map Message.sequence =
      List.range inputs.length := by
  rw [runTextMessages_map_sequence sender ChatProtocol.new inputs
    (by norm_num [ChatProtocol.new])]
  have h : ∀ i ∈ List.range inputs.length,
      (ChatProtocol.new.sequence + i) % 2 ^ 64 = i := by
    intro i hi
    have : i < 2 ^ 64 := lt_of_lt_of_le (List.mem_range.mp hi) hN
    simp only [ChatProtocol.new]
    omega
  rw [List.map_congr_left h]
  simp

/-- C7 witness: five consecutive calls on a fresh instance yield
sequence fields `[0, 1, 2, 3, 4]`. -/
theorem c7_fresh_run_sequences_are_range_witness :
    (runTextMessages [] ChatProtocol.new
      [([], 0, [1]), ([], 0, [2]), ([], 0, [3]), ([], 0, [4]), ([], 0, [5])]
      ).map Message.sequence = List.range 5 :=
  c7_fresh_run_sequences_are_range [] _ (by norm_num)

/-- C7 counterexample to the unbounded claim: after `2 ^ 64 + 1` calls the
`u64` counter has wrapped, so the sequence fields are not
`0, ..., 2 ^ 64`. -/
theorem c7_unbounded_claim_fails_at_wraparound :
    (runTextMessages [] ChatProtocol.new
      (List.replicate (2 ^ 64 + 1) ([], 0, []))).map Message.sequence ≠
      List.range (2 ^ 64 + 1) := by
  intro h
  rw [runTextMessages_map_sequence [] ChatProtocol.new _
    (by norm_num [ChatProtocol.new]), List.length_replicate] at h
  have hmem : (2 ^ 64 : Nat) ∈ List.range (2 ^ 64 + 1) :=
    List.mem_range.mpr (by omega)
  rw [← h] at hmem
  obtain ⟨i, _, hfi⟩ := List.mem_map.mp hmem
  have hlt : (ChatProtocol.new.sequence + i) % 2 ^ 64 < 2 ^ 64 :=
    Nat.mod_lt _ (by norm_num)
  omega

/-- `StorageError` from src/core/src/storage.rs (message payloads
elided). -/
inductive StorageError where
  | ioError
  | serializationError
  | encryptionError
  | identityNotFound
  | invalidPassword
  | fingerprintMismatch
deriving DecidableEq, Repr

/-- `SecureIdentity { fingerprint, encrypted_data }`: the on-disk identity
record; `encrypted_data` is base64. -/
structure SecureIdentity where
  fingerprint : Fingerprint
  encrypted_data : Bytes
deriving DecidableEq, Repr

/-- `StoredContact` from storage.rs. -/
structure StoredContact where
  address : Bytes
  nickname : Bytes
  fingerprint : Fingerprint
  added_at : Int
deriving DecidableEq, Repr

/-- serde_json serialization, an external crate: parameters for the
serializers the storage layer uses (`to_string` / `from_str` on the three
persisted shapes).  The serializers on these types cannot fail and are
total. -/
structure Serde where
  serIdentity : SecureIdentity → Bytes
  deserIdentity : Bytes → Option SecureIdentity
  serKeypair : IdentityKeyPair → Bytes
  deserKeypair : Bytes → Option IdentityKeyPair
  serContacts : List StoredContact → Bytes
  deserContacts : Bytes → Option (List StoredContact)

/-- The storage directory of `SecureStorage`: the contents of
`identity.enc` and `contacts.json` (`none` = file absent). -/
structure FS where
  identity : Option Bytes
  contacts : Option Bytes
deriving DecidableEq

namespace SecureStorage

/-- `SecureStorage::has_identity`: existence check on `identity.enc`. -/
def has_identity (st : FS) : Bool :=
  st.identity.isSome

/-- `SecureStorage::create_identity`: generate a key pair, compute its
fingerprint from the decoded public key, serialize and password-encrypt
the pair, persist `{fingerprint, encrypted_data}`; the random raw keys,
salt and nonce are explicit arguments. -/
def create_identity (P : Prims) (S : Serde) (pk_raw sk_raw salt nonce : Bytes)
    (st : FS) (password : Bytes) : Except StorageError (Fingerprint × FS) :=
  let keypair := Crypto.generate_identity P pk_raw sk_raw
  match P.b64decode keypair.public_key with
  | none => .error .encryptionError
  | some pk_bytes =>
    match publicKeyFromSlice pk_bytes with
    | none => .error .encryptionError
    | some pk =>
      let fingerprint := Fingerprint.from_public_key P pk
      let plain := S.serKeypair keypair
      match Crypto.encrypt_with_password P salt nonce plain password with
      | .error _ => .error .encryptionError
      | .ok encrypted =>
        let secure_id : SecureIdentity :=
          { fingerprint := fingerprint, encrypted_data := P.b64encode encrypted }
        .ok (fingerprint, { st with identity := some (S.serIdentity secure_id) })

/-- `SecureStorage::load_identity`: read and deserialize `identity.enc`,
base64-decode and password-decrypt the blob (`InvalidPassword` on any
decryption failure), deserialize the key pair, recompute the fingerprint
from the recovered public key and reject on disagreement with the stored
clear value. -/
def load_identity (P : Prims) (S : Serde) (st : FS) (password : Bytes) :
    Except StorageError IdentityKeyPair :=
  match st.identity with
  | none => .error .identityNotFound
  | some content =>
    match S.deserIdentity content with
    | none => .error .serializationError
    | some secure_id =>
      match P.b64decode secure_id.encrypted_data with
      | none => .error .encryptionError
      | some encrypted =>
        match Crypto.decrypt_with_password P encrypted password with
        | .error _ => .error .invalidPassword
        | .ok plain =>
          match S.deserKeypair plain with
          | none => .error .serializationError
          | some keypair =>
            match P.b64decode keypair.public_key with
            | none => .error .encryptionError
            | some pk_bytes =>
              match publicKeyFromSlice pk_bytes with
              | none => .error .encryptionError
              | some pk =>
                let fp := Fingerprint.from_public_key P pk
                if fp ≠ secure_id.fingerprint then .error .fingerprintMismatch
                else .ok keypair

/-- `SecureStorage::load_contacts`: absent `contacts.json` is an empty
list; otherwise deserialize the plaintext JSON file.  No password is
taken and no decryption happens. -/
def load_contacts (S : Serde) (st : FS) :
    Except StorageError (List StoredContact) :=
  match st.contacts with
  | none => .ok []
  | some content =>
    match S.deserContacts content with
    | none => .error .serializationError
    | some contacts => .ok contacts

/-- `SecureStorage::save_contacts`: serialize the whole list and write it
to `contacts.json` as-is.  No password is taken and no encryption
happens. -/
def save_contacts (S : Serde) (st : FS) (contacts : List StoredContact) : FS :=
  { st with contacts := some (S.serContacts contacts) }

/-- `SecureStorage::add_contact`: read-modify-write; silently ignores an
address that is already present.  The clock reading is an explicit
argument. -/
def add_contact (S : Serde) (st : FS) (address nickname : Bytes)
    (fingerprint : Fingerprint) (now : Int) : Except StorageError FS :=
  match load_contacts S st with
  | .error e => .error e
  | .ok contacts =>
    if contacts.any (fun c => decide (c.address = address)) then .ok st
    else
      let contact : StoredContact :=
        { address := address, nickname := nickname,
          fingerprint := fingerprint, added_at := now }
      .ok (save_contacts S st (contacts ++ [contact]))

/-- `SecureStorage::remove_contact`: read-modify-write, retaining the
contacts whose address differs. -/
def remove_contact (S : Serde) (st : FS) (address : Bytes) :
    Except StorageError FS :=
  match load_contacts S st with
  | .error e => .error e
  | .ok contacts =>
    .ok (save_contacts S st
      (contacts.filter (fun c => decide (¬ c.address = address))))

/-- `SecureStorage::find_contact`: load and search by address, mapping any
load error to `none`. -/
def find_contact (S : Serde) (st : FS) (address : Bytes) :
    Option StoredContact :=
  (load_contacts S st).toOption.bind
    (List.find? (fun c => decide (c.address = address)))

end SecureStorage

/-- Concrete contact encoder for the serde stand-in: every field
length-prefixed, the timestamp as sign flag plus magnitude. -/
def encContact (c : StoredContact) : Bytes :=
  (c.address.length :: c.address) ++ (c.nickname.length :: c.nickname) ++
    (c.fingerprint.s.length :: c.fingerprint.s) ++
    [if c.added_at < 0 then 1 else 0, c.added_at.natAbs]

/-- Concrete one-contact decoder, returning the remaining bytes. -/
def decContact : Bytes → Option (StoredContact × Bytes)
  | [] => none
  | la :: r =>
    match r.drop la with
    | [] => none
    | ln :: r2 =>
      match r2.drop ln with
      | [] => none
      | lf :: r3 =>
        match r3.drop lf with
        | sgn :: mag :: r4 =>
          some (⟨r.take la, r2.take ln, ⟨r3.take lf⟩,
            if sgn = 1 then -(mag : Int) else (mag : Int)⟩, r4)
        | _ => none

/-- Concrete contact-list decoder: decode the given number of contacts. -/
def decContacts : Nat → Bytes → Option (List StoredContact)
  | 0, _ => some []
  | n + 1, b =>
    match decContact b with
    | none => none
    | some (c, rest) => (decContacts n rest).map (c :: ·)

/-- Concrete stand-in for the serde_json serializers, used to instantiate
theorems at concrete inputs: simple length-prefixed encodings with
executable inverses. -/
def mockSerde : Serde where
  serIdentity := fun si =>
    si.fingerprint.s.length :: (si.fingerprint.s ++ si.encrypted_data)
  deserIdentity := fun b =>
    match b with
    | [] => none
    | n :: rest => some ⟨⟨rest.take n⟩, rest.drop n⟩
  serKeypair := fun kp =>
    kp.public_key.length :: (kp.public_key ++ kp.secret_key)
  deserKeypair := fun b =>
    match b with
    | [] => none
    | n :: rest => some ⟨rest.take n, rest.drop n⟩
  serContacts := fun l => l.length :: (l.map encContact).flatten
  deserContacts := fun b =>
    match b with
    | [] => none
    | n :: rest => decContacts n rest

/-- The identity-record serializer stand-in round-trips. -/
theorem mockSerde_deserIdentity_roundtrip (x : SecureIdentity) :
    mockSerde.deserIdentity (mockSerde.serIdentity x) = some x := by
  obtain ⟨⟨fs⟩, ed⟩ := x
  simp [mockSerde, List.take_left, List.drop_left]

/-- The key-pair serializer stand-in round-trips. -/
theorem mockSerde_deserKeypair_roundtrip (x : IdentityKeyPair) :
    mockSerde.deserKeypair (mockSerde.serKeypair x) = some x := by
  obtain ⟨pk, sk⟩ := x
  simp [mockSerde, List.take_left, List.drop_left]

/-- Decrypting a well-formed `salt ‖ nonce ‖ ciphertext` blob re-derives
the key from its salt slice and opens its ciphertext slice. -/
theorem decrypt_with_password_append (P : Prims)
    (salt nonce ct password : Bytes)
    (hs : salt.length = 16) (hn : nonce.length = 24) :
    Crypto.decrypt_with_password P (salt ++ nonce ++ ct) password =
      match P.deriveKey password salt with
      | none => .error .decryptionFailed
      | some key =>
        match P.sbOpen ct nonce key with
        | none => .error .decryptionFailed
        | some m => .ok m := by
  obtain ⟨h1, h2, h3, h4⟩ := slices40 salt nonce ct hs hn
  simp only [Crypto.decrypt_with_password, if_neg h4, h1, h2, h3,
    saltFromSlice, hs, if_true, nonceFromSlice, hn]

/-- C3: for an identity created by `create_identity`, `load_identity`
with the same password returns the generated key pair and the returned
fingerprint is the one recomputed from the public key; with a different
password whose re-derived key cannot open the blob (the overwhelming-
probability event), it fails with `InvalidPassword`; and on a stored
record whose clear fingerprint was tampered with, it fails with
`FingerprintMismatch` even though decryption succeeds. -/
theorem c3_create_load_identity_lifecycle (P : Prims) (S : Serde)
    (pk_raw sk_raw salt nonce password password' key : Bytes) (st : FS)
    (hb64 : ∀ x, P.b64decode (P.b64encode x) = some x)
    (hserI : ∀ x, S.deserIdentity (S.serIdentity x) = some x)
    (hserK : ∀ x, S.deserKeypair (S.serKeypair x) = some x)
    (hpk : pk_raw.length = 32)
    (hs : salt.length = 16) (hn : nonce.length = 24)
    (hk : P.deriveKey password salt = some key)
    (hopen : P.sbOpen
        (P.sbSeal (S.serKeypair (Crypto.generate_identity P pk_raw sk_raw))
          nonce key) nonce key =
      some (S.serKeypair (Crypto.generate_identity P pk_raw sk_raw)))
    (_hne : password' ≠ password)
    (hwrong : ∀ key', P.deriveKey password' salt = some key' →
      P.sbOpen
        (P.sbSeal (S.serKeypair (Crypto.generate_identity P pk_raw sk_raw))
          nonce key) nonce key' = none) :
    (∀ fp st',
      SecureStorage.create_identity P S pk_raw sk_raw salt nonce st password =
        .ok (fp, st') →
      fp = Fingerprint.from_public_key P pk_raw ∧
      SecureStorage.load_identity P S st' password =
        .ok (Crypto.generate_identity P pk_raw sk_raw) ∧
      SecureStorage.load_identity P S st' password' =
        .error .invalidPassword) ∧
    (∀ f_bad : Fingerprint, f_bad ≠ Fingerprint.from_public_key P pk_raw →
      SecureStorage.load_identity P S
        { identity := some (S.serIdentity
            { fingerprint := f_bad,
              encrypted_data := P.b64encode (salt ++ nonce ++
                P.sbSeal
                  (S.serKeypair (Crypto.generate_identity P pk_raw sk_raw))
                  nonce key) }),
          contacts := st.contacts } password =
        .error .fingerprintMismatch) := by
  have hcreate :
      SecureStorage.create_identity P S pk_raw sk_raw salt nonce st password =
        .ok (Fingerprint.from_public_key P pk_raw,
          { st with identity := some (S.serIdentity
              { fingerprint := Fingerprint.from_public_key P pk_raw,
                encrypted_data := P.b64encode (salt ++ nonce ++
                  P.sbSeal
                    (S.serKeypair (Crypto.generate_identity P pk_raw sk_raw))
                    nonce key) }) }) := by
    simp only [SecureStorage.create_identity, Crypto.generate_identity,
      hb64, publicKeyFromSlice, hpk, if_true, Crypto.encrypt_with_password,
      saltFromSlice, hs, hk]
  have hload : ∀ f : Fingerprint,
      SecureStorage.load_identity P S
        { identity := some (S.serIdentity
            { fingerprint := f,
              encrypted_data := P.b64encode (salt ++ nonce ++
                P.sbSeal
                  (S.serKeypair (Crypto.generate_identity P pk_raw sk_raw))
                  nonce key) }),
          contacts := st.contacts } password =
        if Fingerprint.from_public_key P pk_raw ≠ f then
          .error .fingerprintMismatch
        else .ok (Crypto.generate_identity P pk_raw sk_raw) := by
    intro f
    simp only [SecureStorage.load_identity, hserI, hb64,
      decrypt_with_password_append P salt nonce _ password hs hn, hk, hopen,
      hserK]
    simp only [Crypto.generate_identity, hb64, publicKeyFromSlice, hpk,
      if_true]
  have hloadw :
      SecureStorage.load_identity P S
        { identity := some (S.serIdentity
            { fingerprint := Fingerprint.from_public_key P pk_raw,
              encrypted_data := P.b64encode (salt ++ nonce ++
                P.sbSeal
                  (S.serKeypair (Crypto.generate_identity P pk_raw sk_raw))
                  nonce key) }),
          contacts := st.contacts } password' =
        .error .invalidPassword := by
    simp only [SecureStorage.load_identity, hserI, hb64,
      decrypt_with_password_append P salt nonce _ password' hs hn]
    cases hdk : P.deriveKey password' salt with
    | none => rfl
    | some key' => simp [hwrong key' hdk]
  refine ⟨?_, ?_⟩
  · intro fp st' heq
    rw [hcreate] at heq
    simp only [Except.ok.injEq, Prod.mk.injEq] at heq
    obtain ⟨rfl, rfl⟩ := heq
    refine ⟨rfl, ?_, hloadw⟩
    rw [hload (Fingerprint.from_public_key P pk_raw),
      if_neg (fun h => h rfl)]
  · intro f_bad hbad
    rw [hload f_bad, if_pos (Ne.symm hbad)]

/-- Concrete key pair, identity blob, stored record and tampered record
used to instantiate the identity lifecycle at concrete inputs. -/
def kpW : IdentityKeyPair :=
  Crypto.generate_identity mockPrims (List.replicate 32 0) [5]

/-- Concrete `salt ‖ nonce ‖ ciphertext` identity blob for the witness. -/
def blobW : Bytes :=
  List.replicate 16 5 ++ List.replicate 24 7 ++
    mockPrims.sbSeal (mockSerde.serKeypair kpW) (List.replicate 24 7) [1, 2]

/-- Concrete stored identity state produced by `create_identity`. -/
def stGoodW : FS :=
  ⟨some (mockSerde.serIdentity
    ⟨Fingerprint.from_public_key mockPrims (List.replicate 32 0),
     mockPrims.b64encode blobW⟩), none⟩

/-- The same stored state with the clear fingerprint tampered to `[9]`. -/
def stBadW : FS :=
  ⟨some (mockSerde.serIdentity ⟨⟨[9]⟩, mockPrims.b64encode blobW⟩), none⟩

/-- C3 witness: the identity lifecycle at a concrete key pair, salt,
nonce and passwords over the concrete primitives and serializers. -/
theorem c3_create_load_identity_lifecycle_witness :
    SecureStorage.create_identity mockPrims mockSerde (List.replicate 32 0)
      [5] (List.replicate 16 5) (List.replicate 24 7) ⟨none, none⟩ [2] =
      .ok (Fingerprint.from_public_key mockPrims (List.replicate 32 0),
        stGoodW) ∧
    SecureStorage.load_identity mockPrims mockSerde stGoodW [2] = .ok kpW ∧
    SecureStorage.load_identity mockPrims mockSerde stGoodW [1] =
      .error .invalidPassword ∧
    SecureStorage.load_identity mockPrims mockSerde stBadW [2] =
      .error .fingerprintMismatch := by
  have h := c3_create_load_identity_lifecycle mockPrims mockSerde
    (List.replicate 32 0) [5] (List.replicate 16 5) (List.replicate 24 7)
    [2] [1] [1, 2] ⟨none, none⟩
    (fun _ => rfl) mockSerde_deserIdentity_roundtrip
    mockSerde_deserKeypair_roundtrip (by decide) (by decide) (by decide)
    (by rfl) (by decide) (by decide)
    (fun key' hk' => by injection hk' with h'; subst h'; decide)
  have hcr : SecureStorage.create_identity mockPrims mockSerde
      (List.replicate 32 0) [5] (List.replicate 16 5) (List.replicate 24 7)
      ⟨none, none⟩ [2] =
      .ok (Fingerprint.from_public_key mockPrims (List.replicate 32 0),
        stGoodW) := rfl
  exact ⟨hcr, (h.1 _ stGoodW hcr).2.1, (h.1 _ stGoodW hcr).2.2,
    h.2 ⟨[9]⟩ (by decide)⟩

/-- Modelled from the spec: `save_contacts(list, password)` as §4.3 / §8
describe it — the whole contact list serialized, then password-encrypted
as one `salt ‖ nonce ‖ ciphertext` blob, then persisted.  storage.rs
itself contains no such function: its `save_contacts` takes no password. -/
def save_contacts_spec (P : Prims) (S : Serde) (salt nonce : Bytes)
    (st : FS) (contacts : List StoredContact) (password : Bytes) :
    Except StorageError FS :=
  match Crypto.encrypt_with_password P salt nonce (S.serContacts contacts)
      password with
  | .error _ => .error .encryptionError
  | .ok blob => .ok { st with contacts := some blob }

/-- C4 counterexample: at a concrete contact list, `save_contacts`
persists exactly the plain serialization — the address bytes `[7, 8, 9]`
appear verbatim in the stored file — and the stored content is not what
the password-encrypting variant described by the spec would store. -/
theorem c4_contacts_stored_in_cleartext :
    (SecureStorage.save_contacts mockSerde ⟨none, none⟩
        [⟨[7, 8, 9], [1], ⟨[2]⟩, 0⟩]).contacts =
      some ([1, 3] ++ [7, 8, 9] ++ [1, 1, 1, 2, 0, 0]) ∧
    (SecureStorage.save_contacts mockSerde ⟨none, none⟩
        [⟨[7, 8, 9], [1], ⟨[2]⟩, 0⟩]).contacts ≠
      (save_contacts_spec mockPrims mockSerde (List.replicate 16 5)
        (List.replicate 24 7) ⟨none, none⟩ [⟨[7, 8, 9], [1], ⟨[2]⟩, 0⟩]
        [9]).toOption.bind FS.contacts := by
  refine ⟨by decide, by decide⟩

/-- C4 (amended): `save_contacts` takes no password and persists the
plain serialization of the whole list to `contacts.json`;
`load_contacts` (also password-less) deserializes it back. -/
theorem c4_contacts_plaintext_roundtrip (S : Serde) (st : FS)
    (l : List StoredContact)
    (h : S.deserContacts (S.serContacts l) = some l) :
    SecureStorage.save_contacts S st l =
      { st with contacts := some (S.serContacts l) } ∧
    SecureStorage.load_contacts S (SecureStorage.save_contacts S st l) =
      .ok l := by
  refine ⟨rfl, ?_⟩
  simp [SecureStorage.load_contacts, SecureStorage.save_contacts, h]

/-- C4 witness: the plaintext round trip at a concrete one-element
contact list over the concrete serializers. -/
theorem c4_contacts_plaintext_roundtrip_witness :
    SecureStorage.save_contacts mockSerde ⟨none, none⟩
      [⟨[7, 8, 9], [1], ⟨[2]⟩, 0⟩] =
      ⟨none, some (mockSerde.serContacts [⟨[7, 8, 9], [1], ⟨[2]⟩, 0⟩])⟩ ∧
    SecureStorage.load_contacts mockSerde
      (SecureStorage.save_contacts mockSerde ⟨none, none⟩
        [⟨[7, 8, 9], [1], ⟨[2]⟩, 0⟩]) =
      .ok [⟨[7, 8, 9], [1], ⟨[2]⟩, 0⟩] :=
  c4_contacts_plaintext_roundtrip mockSerde ⟨none, none⟩
    [⟨[7, 8, 9], [1], ⟨[2]⟩, 0⟩] (by decide)

/-- C10: with no contacts file on disk, `load_contacts` succeeds with the
empty list, `find_contact` finds nothing, `add_contact` stores exactly the
one new contact, and `remove_contact` stores the empty list. -/
theorem c10_missing_contacts_file_empty_list (S : Serde) (st : FS)
    (addr nick : Bytes) (fp : Fingerprint) (now : Int)
    (h : st.contacts = none) :
    SecureStorage.load_contacts S st = .ok [] ∧
    SecureStorage.find_contact S st addr = none ∧
    SecureStorage.add_contact S st addr nick fp now =
      .ok (SecureStorage.save_contacts S st [⟨addr, nick, fp, now⟩]) ∧
    SecureStorage.remove_contact S st addr =
      .ok (SecureStorage.save_contacts S st []) := by
  have hl : SecureStorage.load_contacts S st = .ok [] := by
    simp [SecureStorage.load_contacts, h]
  refine ⟨hl, ?_, ?_, ?_⟩
  · simp [SecureStorage.find_contact, hl, Except.toOption]
  · simp [SecureStorage.add_contact, hl]
  · simp [SecureStorage.remove_contact, hl]

/-- C10 witness: the fresh-directory behaviour at a concrete address,
nickname, fingerprint and timestamp over the concrete serializers. -/
theorem c10_missing_contacts_file_empty_list_witness :
    SecureStorage.load_contacts mockSerde ⟨none, none⟩ = .ok [] ∧
    SecureStorage.find_contact mockSerde ⟨none, none⟩ [1] = none ∧
    SecureStorage.add_contact mockSerde ⟨none, none⟩ [1] [2] ⟨[3]⟩ 4 =
      .ok (SecureStorage.save_contacts mockSerde ⟨none, none⟩
        [⟨[1], [2], ⟨[3]⟩, 4⟩]) ∧
    SecureStorage.remove_contact mockSerde ⟨none, none⟩ [1] =
      .ok (SecureStorage.save_contacts mockSerde ⟨none, none⟩ []) :=
  c10_missing_contacts_file_empty_list mockSerde ⟨none, none⟩ [1] [2]
    ⟨[3]⟩ 4 rfl

/-- Modelled from the spec: `apply_padding(data, block_size)` (§4.1) —
ISO/IEC 7816-4: append one `0x80` delimiter, then zero bytes until the
length is a multiple of `block_size`.  No implementation exists under
src/; src/core/src/crypto.rs has no padding functions. -/
def apply_padding (data : Bytes) (block_size : Nat) : Bytes :=
  let padded := data ++ [0x80]
  let r := padded.length % block_size
  padded ++ List.replicate (if r = 0 then 0 else block_size - r) 0

/-- Modelled from the spec: `remove_padding(data)` (§4.1) — scan backward
over zero bytes for the `0x80` marker, failing with `DecryptionFailed` if
it is absent.  No implementation exists under src/. -/
def remove_padding (data : Bytes) : Except CryptoError Bytes :=
  match data.reverse.dropWhile (fun b => decide (b = 0)) with
  | [] => .error .decryptionFailed
  | b :: rest =>
    if b = 0x80 then .ok rest.reverse else .error .decryptionFailed

/-- Dropping while a satisfied predicate holds skips a leading replicate
block. -/
theorem dropWhile_replicate_append (p : Nat → Bool) (a : Nat)
    (hp : p a = true) (z : Nat) (l : Bytes) :
    (List.replicate z a ++ l).dropWhile p = l.dropWhile p := by
  induction z with
  | zero => simp
  | succ n ih => simp [List.replicate_succ, List.dropWhile_cons, hp, ih]

/-- Removing padding undoes appending `0x80` and any number of zeros. -/
theorem remove_padding_marker_zeros (d : Bytes) (z : Nat) :
    remove_padding ((d ++ [0x80]) ++ List.replicate z 0) = .ok d := by
  have hrev : ((d ++ [0x80]) ++ List.replicate z 0).reverse =
      List.replicate z 0 ++ (0x80 :: d.reverse) := by
    rw [List.reverse_append, List.reverse_replicate, List.reverse_append]
    rfl
  rw [remove_padding, hrev,
    dropWhile_replicate_append _ 0 (by decide) z (0x80 :: d.reverse)]
  simp [List.dropWhile_cons]

/-- C9: ISO/IEC 7816-4 padding: `apply_padding([0x41, 0x42], 4)` yields
`[0x41, 0x42, 0x80, 0x00]`, `remove_padding` on that returns
`[0x41, 0x42]`, and in general `remove_padding` inverts `apply_padding`
for every data and every positive block size. -/
theorem c9_iso7816_padding_roundtrip :
    apply_padding [0x41, 0x42] 4 = [0x41, 0x42, 0x80, 0x00] ∧
    remove_padding (apply_padding [0x41, 0x42] 4) = .ok [0x41, 0x42] ∧
    ∀ (d : Bytes) (n : Nat), 0 < n →
      remove_padding (apply_padding d n) = .ok d := by
  refine ⟨by decide, by rfl, fun d n _hn => ?_⟩
  simp only [apply_padding]
  exact remove_padding_marker_zeros d _

/-- C9 witness: the padding round trip at a concrete three-byte input and
block size 4. -/
theorem c9_iso7816_padding_roundtrip_witness :
    remove_padding (apply_padding [5, 6, 7] 4) = .ok [5, 6, 7] :=
  c9_iso7816_padding_roundtrip.2.2 [5, 6, 7] 4 (by decide)

end Torpaste
